import Mathlib

/- Verification of the SummerUniversity diffusion/stencil material.

   The heat-equation stencil code comes from the Numba stencil notebook
   (1D and 2D explicit finite-difference simulations); the decomposition
   code comes from the CuPy multi-GPU Mandelbrot notebook.  Fields are
   modelled as row-major lists of rows of exact rationals (a faithful
   model of double-precision formulas, evaluated exactly), and the
   numba.stencil boundary semantics (out-of-neighborhood cells receive
   the constant 0) is made explicit.  Components of the distributed
   solver whose source is not in the tree (it is only invoked by the
   batch script) are modelled from the specification and marked as such. -/

namespace SummerU

/-- A 2-D field: a numpy array modelled as a row-major list of rows. -/
abbrev Field2 := List (List ℚ)

/-- Read element `i` of a 1-D array, defaulting to 0 out of bounds
    (the numba.stencil constant value). -/
def getq1 (x : List ℚ) (i : ℕ) : ℚ := x.getD i 0

/-- Read element `(i, j)` of a 2-D field, defaulting to 0 out of bounds. -/
def getq (x : Field2) (i j : ℕ) : ℚ := (x.getD i []).getD j 0

/-- `central_diff_stencil(x, F)` from the Numba notebook:
    `return x[0] + F * (x[1] - 2.0 * x[0] + x[-1])`.
    numba.stencil computes this at every index whose whole neighborhood
    is in bounds and writes the constant 0 elsewhere. -/
def central_diff_stencil (x : List ℚ) (F : ℚ) : List ℚ :=
  let n := x.length
  (List.range n).map fun i =>
    if 0 < i ∧ i + 1 < n then
      getq1 x i + F * (getq1 x (i + 1) - 2 * getq1 x i + getq1 x (i - 1))
    else 0

/-- `simulation(x, F, nt)` from the Numba notebook: apply the 1-D stencil
    `nt` times, rebinding `x` each iteration. -/
def simulation (x : List ℚ) (F : ℚ) (nt : ℕ) : List ℚ :=
  (fun y => central_diff_stencil y F)^[nt] x

/-- `central_diff_stencil2D(x, Fx, Fy)` from the Numba notebook:
    `return (x[0, 0] + Fx * (x[-1, 0] - 2.0 * x[0, 0] + x[1, 0]) +
             + Fy * (x[0, -1] - 2.0 * x[0, 0] + x[0, 1]))`.
    Computed at interior cells; the boundary ring receives the constant 0. -/
def central_diff_stencil2D (x : Field2) (Fx Fy : ℚ) : Field2 :=
  let R := x.length
  let C := (x.headD []).length
  (List.range R).map fun i =>
    (List.range C).map fun j =>
      if 0 < i ∧ i + 1 < R ∧ 0 < j ∧ j + 1 < C then
        getq x i j + Fx * (getq x (i - 1) j - 2 * getq x i j + getq x (i + 1) j)
          + Fy * (getq x i (j - 1) - 2 * getq x i j + getq x i (j + 1))
      else 0

/-- `simulation2D(x, Fx, Fy, nt)` from the Numba notebook: apply the 2-D
    stencil `nt` times, rebinding `x` each iteration. -/
def simulation2D (x : Field2) (Fx Fy : ℚ) (nt : ℕ) : Field2 :=
  (fun y => central_diff_stencil2D y Fx Fy)^[nt] x

namespace cfg2D

/- The 2-D setup cell of the Numba notebook.  Note `dx = L / nx` and
   `dy = L / ny` use `L` (= 100.0, still in scope from the 1-D section),
   not `Lx`/`Ly`. -/

def nx : ℕ := 400
def ny : ℕ := 400
def nt : ℕ := 10000
def T : ℚ := 100
def L : ℚ := 100
def Lx : ℚ := 10
def Ly : ℚ := 10
def dx : ℚ := L / nx
def dy : ℚ := L / ny
def dt : ℚ := T / nt
def alpha : ℚ := 1
def Fx : ℚ := alpha * dt / dx ^ 2
def Fy : ℚ := alpha * dt / dy ^ 2

end cfg2D

/-- The allocation behaviour of the njit loop `for i in range(nt): x =
    central_diff_stencil(x, F)`: each `numba.stencil` call allocates a
    fresh output array and the assignment rebinds the local name `x` to
    it.  Modelled with an explicit store of allocated arrays: the state
    is the list of all arrays allocated so far plus the index of the
    array the local name `x` currently refers to; each iteration appends
    a fresh array and never writes to an existing one. -/
def simulationAlloc (F : ℚ) : ℕ → List (List ℚ) → ℕ → List (List ℚ) × ℕ
  | 0, store, r => (store, r)
  | nt + 1, store, r =>
      simulationAlloc F nt (store ++ [central_diff_stencil (store.getD r []) F]) store.length

/-- The allocation behaviour of the 2-D njit loop `for i in range(nt):
    x = central_diff_stencil2D(x, Fx, Fy)`, modelled exactly like
    `simulationAlloc`: each iteration appends a freshly allocated 2-D
    array to the store and rebinds the reference; no existing array is
    ever written. -/
def simulationAlloc2D (Fx Fy : ℚ) : ℕ → List Field2 → ℕ → List Field2 × ℕ
  | 0, store, r => (store, r)
  | nt + 1, store, r =>
      simulationAlloc2D Fx Fy nt
        (store ++ [central_diff_stencil2D (store.getD r []) Fx Fy]) store.length

/-- `np.linspace(a, b, n)[k]` for `n ≥ 2`: evenly spaced points from `a`
    to `b` inclusive. -/
def linspace (a b : ℚ) (n k : ℕ) : ℚ := a + (b - a) * k / ((n : ℚ) - 1)

/-- The while loop of `mandelbrot_kernel` from the CuPy multi-GPU
    notebook: `while (x*x + y*y < radius2 && nit < itermax) { xtemp =
    x*x - y*y + cx; y = 2.0*x*y + cy; x = xtemp; nit += 1; }`.  The fuel
    starts at `itermax` and `nit` at 0, so fuel exhaustion coincides with
    the `nit < itermax` guard failing. -/
def mandelLoop (cx cy radius2 : ℚ) : ℕ → ℚ → ℚ → ℕ → ℕ
  | 0, _, _, nit => nit
  | fuel + 1, x, y, nit =>
      if x * x + y * y < radius2 then
        mandelLoop cx cy radius2 fuel (x * x - y * y + cx) (2 * x * y + cy) (nit + 1)
      else nit

/-- `mandelbrot_kernel(X, Y, itermax, radius2)`: the escape-time count
    starting from `x = cx = X`, `y = cy = Y`, `nit = 0`. -/
def mandelbrot_kernel (X Y : ℚ) (itermax : ℕ) (radius2 : ℚ) : ℕ :=
  mandelLoop X Y radius2 itermax X Y 0

/-- The single-device run (cell 3): `X, Y = cp.meshgrid(cp.linspace(xmin,
    xmax, 5000), cp.linspace(ymin, ymax, 5000))` with `xmin, xmax = -2, 1`
    and `ymin, ymax = -1, 1`, then `mandelbrot_kernel(X, Y, 100, 4.0)`.
    Entry `(r, c)` of the resulting array. -/
def mandelbrot_array (r c : ℕ) : ℕ :=
  mandelbrot_kernel (linspace (-2) 1 5000 c) (linspace (-1) 1 5000 r) 100 4

/-- `xmin_local = xmin + (xmax - xmin) / total_gpus * i` from the
    split-by-columns cell (`total_gpus = 4`). -/
def xmin_local (i : ℕ) : ℚ := -2 + (1 - (-2)) / 4 * i

/-- `xmax_local = xmin_local + (xmax - xmin) / total_gpus`. -/
def xmax_local (i : ℕ) : ℚ := xmin_local i + (1 - (-2)) / 4

/-- GPU `i`'s tile in the split-by-columns cell: the kernel evaluated on
    `cp.meshgrid(cp.linspace(xmin_local, xmax_local, local_cols),
    cp.linspace(ymin, ymax, rows))` with `local_cols = cols // 4 = 1250`
    and `rows = 5000`, plus the deliberate per-GPU colour offset `i * 10`
    ("to be able to show different color for each gpu").  Entry `(r, c)`. -/
def mandelbrot_tile (i r c : ℕ) : ℕ :=
  mandelbrot_kernel (linspace (xmin_local i) (xmax_local i) 1250 c)
    (linspace (-1) 1 5000 r) 100 4 + i * 10

/-- `cp.hstack(mandelbrot_arrays)`: global column `gc` of the assembled
    array is column `gc % 1250` of tile `gc / 1250`. -/
def hstacked (r gc : ℕ) : ℕ := mandelbrot_tile (gc / 1250) r (gc % 1250)

/-- `local_cols = cols // P`: the number of columns each worker computes
    in the split-by-columns decomposition (the notebook has `P = 4`). -/
def local_cols (cols P : ℕ) : ℕ := cols / P

/-- Worker `i`'s interior region in the split-by-columns decomposition:
    after `hstack`, tile `i` occupies global columns
    `[i * local_cols, (i+1) * local_cols)` of every row. -/
def inRegion (cols P i c : ℕ) : Prop :=
  i * local_cols cols P ≤ c ∧ c < (i + 1) * local_cols cols P

instance (cols P i c : ℕ) : Decidable (inRegion cols P i c) := by
  unfold inRegion; infer_instance

/-- The error taxonomy of the solver specification. -/
inductive SolverError
  | configError
  | allocError
  | commError
  | divergence
  | internal
deriving DecidableEq, Repr

/-- The configuration consumed by the solver core. -/
structure GlobalGridSpec where
  Nx : ℕ
  Ny : ℕ
  dx : ℚ
  dy : ℚ
  alpha : ℚ
  dt : ℚ
  maxIter : ℕ
deriving DecidableEq, Repr

/-- Modelled from the spec: the stability factor
    `F = alpha·dt / min(dx², dy²)` of a configuration. -/
def stabilityF (g : GlobalGridSpec) : ℚ := g.alpha * g.dt / min (g.dx ^ 2) (g.dy ^ 2)

/-- Modelled from the spec: solver setup (the missing distributed solver,
    `diffusion2d_mpi`, is only invoked by the batch script and its source
    is not in the tree).  Setup validates the stability invariant
    `F ≤ 0.5` before anything else; only on success does it allocate and
    return the zero-filled field buffer, and the configuration value is
    used as given, never clamped. -/
def setup (g : GlobalGridSpec) : Except SolverError Field2 :=
  if stabilityF g ≤ 1 / 2 then
    Except.ok ((List.range (g.Ny + 1)).map fun _ => (List.range (g.Nx + 1)).map fun _ => 0)
  else Except.error SolverError.configError

/-- Modelled from the spec: the GridPartitioner of the missing distributed
    solver.  If `P` does not evenly divide the decomposition axis it fails
    with a configuration error rather than producing partitions; otherwise
    it returns the per-worker column intervals of the notebook's
    split-by-columns scheme (`local_cols = cols // P` columns per worker). -/
def gridPartition (cols P : ℕ) : Except SolverError (List (ℕ × ℕ)) :=
  if P ∣ cols then
    Except.ok ((List.range P).map fun i => (i * local_cols cols P, (i + 1) * local_cols cols P))
  else Except.error SolverError.configError

/-- The lifecycle phases of the TimeStepper state machine. -/
inductive Phase
  | INIT
  | STEPPING
  | CONVERGED
  | MAX_ITER
  | DIVERGED
  | COLLECTING
  | DONE
deriving DecidableEq, Repr

/-- Modelled from the spec: the TimeStepper's stepping loop (the missing
    distributed solver's source is not in the tree).  With an iteration
    budget, a per-iteration field update and a finiteness check: each
    cycle computes the updated field; if any value is non-finite (the
    check fails) the loop stops with the non-fatal `DIVERGED` outcome and
    reports the last valid field (the state from before the diverging
    update) instead of the diverged one; when the budget is exhausted it
    stops with `MAX_ITER` and the current field. -/
def stepLoop {α : Type} (update : α → α) (finiteCheck : α → Bool) : ℕ → α → Phase × α
  | 0, cur => (Phase.MAX_ITER, cur)
  | n + 1, cur =>
      let next := update cur
      if finiteCheck next then stepLoop update finiteCheck n next
      else (Phase.DIVERGED, cur)

/-- The end-to-end scenario's initial condition: a 9×9 point grid
    (`nx = ny = 8` in the notebook's `(nx+1)×(ny+1)` convention, the grid
    with an interior and a boundary ring), a unit impulse at the centre
    point `(4, 4)` and zero elsewhere. -/
def impulse9 : Field2 :=
  (List.range 9).map fun i => (List.range 9).map fun j => if i = 4 ∧ j = 4 then (1 : ℚ) else 0

/-- The scenario's field after `k` iterations with `Fx = Fy = F = 0.1`
    (alpha = 1, dx = dy = 1, dt = 0.1). -/
def heat8 (k : ℕ) : Field2 := simulation2D impulse9 (1 / 10) (1 / 10) k

/-- Total mass over the interior cells (all cells off the boundary ring). -/
def interiorMass (x : Field2) : ℚ :=
  ((x.drop 1).dropLast.map fun row => ((row.drop 1).dropLast).sum).sum

/-- Symmetry of a 9×9 field about the centre: invariance under reflecting
    either index through the centre point `(4, 4)`. -/
def symmCenter (x : Field2) : Prop :=
  ∀ i, i < 9 → ∀ j, j < 9 → getq x i j = getq x (8 - i) j ∧ getq x i j = getq x i (8 - j)

instance (x : Field2) : Decidable (symmCenter x) := by
  unfold symmCenter; infer_instance

section

/- Batteries marks the rational-number operations irreducible; computations
   on concrete fields are discharged by `decide`, which needs them to
   unfold. -/
attribute [local semireducible] Rat.add Rat.mul Rat.sub Rat.inv Rat.ofScientific

lemma getq_grid {R C : ℕ} (f : ℕ → ℕ → ℚ) {i j : ℕ} (hi : i < R) (hj : j < C) :
    getq ((List.range R).map fun i => (List.range C).map fun j => f i j) i j = f i j := by
  simp [getq, List.getD_eq_getElem?_getD, List.getElem?_map, List.getElem?_range, hi, hj]

lemma stencil2D_length (x : Field2) (Fx Fy : ℚ) :
    (central_diff_stencil2D x Fx Fy).length = x.length := by
  simp [central_diff_stencil2D]

lemma stencil2D_headLen (x : Field2) (Fx Fy : ℚ) :
    ((central_diff_stencil2D x Fx Fy).headD []).length = (x.headD []).length := by
  cases x with
  | nil => simp [central_diff_stencil2D]
  | cons r rs => simp [central_diff_stencil2D, List.range_succ_eq_map]

lemma stencil2D_interior (x : Field2) (Fx Fy : ℚ) {i j : ℕ}
    (h1 : 0 < i) (h2 : i + 1 < x.length) (h3 : 0 < j) (h4 : j + 1 < (x.headD []).length) :
    getq (central_diff_stencil2D x Fx Fy) i j
      = getq x i j + Fx * (getq x (i - 1) j - 2 * getq x i j + getq x (i + 1) j)
        + Fy * (getq x i (j - 1) - 2 * getq x i j + getq x i (j + 1)) := by
  have hi : i < x.length := by omega
  have hj : j < (x.headD []).length := by omega
  simp only [central_diff_stencil2D]
  rw [getq_grid _ hi hj, if_pos ⟨h1, h2, h3, h4⟩]

lemma stencil2D_border (x : Field2) (Fx Fy : ℚ) {i j : ℕ}
    (hi : i < x.length) (hj : j < (x.headD []).length)
    (hb : i = 0 ∨ i + 1 = x.length ∨ j = 0 ∨ j + 1 = (x.headD []).length) :
    getq (central_diff_stencil2D x Fx Fy) i j = 0 := by
  simp only [central_diff_stencil2D]
  rw [getq_grid _ hi hj, if_neg]
  rintro ⟨a, b, c, d⟩
  omega

lemma simulation2D_succ (x : Field2) (Fx Fy : ℚ) (n : ℕ) :
    simulation2D x Fx Fy (n + 1) = central_diff_stencil2D (simulation2D x Fx Fy n) Fx Fy := by
  simp only [simulation2D, Function.iterate_succ_apply']

/-- C1: the per-cell update applied each iteration is the explicit
    five-point formula: at every interior cell `(i, j)` of the field
    after `t` iterations, the field after `t + 1` iterations equals
    `current + Fx·(up − 2·c + down) + Fy·(left − 2·c + right)`; and the
    notebook computes `Fx = alpha·dt/dx²`, `Fy = alpha·dt/dy²` once in
    its setup cell. -/
theorem C1_five_point_update (x : Field2) (Fx Fy : ℚ) (t i j : ℕ)
    (h1 : 0 < i) (h2 : i + 1 < (simulation2D x Fx Fy t).length)
    (h3 : 0 < j) (h4 : j + 1 < ((simulation2D x Fx Fy t).headD []).length) :
    (getq (simulation2D x Fx Fy (t + 1)) i j
      = getq (simulation2D x Fx Fy t) i j
        + Fx * (getq (simulation2D x Fx Fy t) (i - 1) j
          - 2 * getq (simulation2D x Fx Fy t) i j
          + getq (simulation2D x Fx Fy t) (i + 1) j)
        + Fy * (getq (simulation2D x Fx Fy t) i (j - 1)
          - 2 * getq (simulation2D x Fx Fy t) i j
          + getq (simulation2D x Fx Fy t) i (j + 1))) ∧
    cfg2D.Fx = cfg2D.alpha * cfg2D.dt / cfg2D.dx ^ 2 ∧
    cfg2D.Fy = cfg2D.alpha * cfg2D.dt / cfg2D.dy ^ 2 := by
  refine ⟨?_, rfl, rfl⟩
  rw [simulation2D_succ]
  exact stencil2D_interior _ _ _ h1 h2 h3 h4

/-- Witness for C1 at a concrete interior cell: a 3×3 field with a unit
    centre, one iteration, cell (1, 1). -/
theorem C1_five_point_update_witness :
    (getq (simulation2D [[0, 0, 0], [0, 1, 0], [0, 0, 0]] (mkRat 1 10) (mkRat 1 10) (0 + 1)) 1 1
      = getq (simulation2D [[0, 0, 0], [0, 1, 0], [0, 0, 0]] (mkRat 1 10) (mkRat 1 10) 0) 1 1
        + mkRat 1 10 * (getq (simulation2D [[0, 0, 0], [0, 1, 0], [0, 0, 0]] (mkRat 1 10) (mkRat 1 10) 0) (1 - 1) 1
          - 2 * getq (simulation2D [[0, 0, 0], [0, 1, 0], [0, 0, 0]] (mkRat 1 10) (mkRat 1 10) 0) 1 1
          + getq (simulation2D [[0, 0, 0], [0, 1, 0], [0, 0, 0]] (mkRat 1 10) (mkRat 1 10) 0) (1 + 1) 1)
        + mkRat 1 10 * (getq (simulation2D [[0, 0, 0], [0, 1, 0], [0, 0, 0]] (mkRat 1 10) (mkRat 1 10) 0) 1 (1 - 1)
          - 2 * getq (simulation2D [[0, 0, 0], [0, 1, 0], [0, 0, 0]] (mkRat 1 10) (mkRat 1 10) 0) 1 1
          + getq (simulation2D [[0, 0, 0], [0, 1, 0], [0, 0, 0]] (mkRat 1 10) (mkRat 1 10) 0) 1 (1 + 1))) ∧
    cfg2D.Fx = cfg2D.alpha * cfg2D.dt / cfg2D.dx ^ 2 ∧
    cfg2D.Fy = cfg2D.alpha * cfg2D.dt / cfg2D.dy ^ 2 :=
  C1_five_point_update [[0, 0, 0], [0, 1, 0], [0, 0, 0]] (mkRat 1 10) (mkRat 1 10) 0 1 1
    (by decide) (by decide) (by decide) (by decide)

/-- C6: with an iteration budget of zero, both simulation loops return the
    input field unchanged (the loop body never runs), and the modelled
    TimeStepper goes straight to the `MAX_ITER` terminal outcome with the
    initial state, performing no stencil update. -/
theorem C6_zero_iterations (x2 : Field2) (x1 : List ℚ) (Fx Fy F : ℚ)
    {α : Type} (update : α → α) (finiteCheck : α → Bool) (s : α) :
    simulation2D x2 Fx Fy 0 = x2 ∧ simulation x1 F 0 = x1 ∧
    stepLoop update finiteCheck 0 s = (Phase.MAX_ITER, s) :=
  ⟨rfl, rfl, rfl⟩

/-- C9: after at least one iteration, every border cell (first or last
    row, first or last column) of the returned array is exactly 0,
    whatever the input's border values were: the stencil writes the
    constant 0 to every cell whose five-point neighborhood leaves the
    array. -/
theorem C9_border_zero (x : Field2) (Fx Fy : ℚ) (nt : ℕ) (hnt : 1 ≤ nt) (i j : ℕ)
    (hi : i < (simulation2D x Fx Fy nt).length)
    (hj : j < ((simulation2D x Fx Fy nt).headD []).length)
    (hb : i = 0 ∨ i + 1 = (simulation2D x Fx Fy nt).length ∨ j = 0 ∨
      j + 1 = ((simulation2D x Fx Fy nt).headD []).length) :
    getq (simulation2D x Fx Fy nt) i j = 0 := by
  obtain ⟨m, rfl⟩ : ∃ m, nt = m + 1 := ⟨nt - 1, by omega⟩
  rw [simulation2D_succ] at hi hj hb ⊢
  rw [stencil2D_length] at hi
  rw [stencil2D_headLen] at hj
  rw [stencil2D_length, stencil2D_headLen] at hb
  exact stencil2D_border _ _ _ hi hj hb

/-- Witness for C9: a 3×3 field with nonzero borders, one iteration, the
    corner cell (0, 0) comes out 0. -/
theorem C9_border_zero_witness :
    getq (simulation2D [[1, 2, 3], [4, 5, 6], [7, 8, 9]] 1 1 1) 0 0 = 0 :=
  C9_border_zero [[1, 2, 3], [4, 5, 6], [7, 8, 9]] 1 1 1 (by decide) 0 0
    (by decide) (by decide) (Or.inl rfl)

/-- C2: a configuration with stability factor `F > 1/2` is rejected at
    setup with a configuration error; no buffer is allocated and no field
    is ever produced for it. -/
theorem C2_stability_abort (g : GlobalGridSpec) (h : 1 / 2 < stabilityF g) :
    setup g = Except.error SolverError.configError ∧
    ∀ buf : Field2, setup g ≠ Except.ok buf := by
  have hn : ¬ stabilityF g ≤ 1 / 2 := not_le.mpr h
  constructor
  · unfold setup
    rw [if_neg hn]
  · intro buf hbuf
    unfold setup at hbuf
    rw [if_neg hn] at hbuf
    exact Except.noConfusion hbuf

/-- Witness for C2: alpha = dt = dx = dy = 1 gives F = 1 > 1/2 and setup
    rejects it. -/
theorem C2_stability_abort_witness :
    setup ⟨8, 8, 1, 1, 1, 1, 10⟩ = Except.error SolverError.configError ∧
    ∀ buf : Field2, setup ⟨8, 8, 1, 1, 1, 1, 10⟩ ≠ Except.ok buf :=
  C2_stability_abort ⟨8, 8, 1, 1, 1, 1, 10⟩ (by norm_num [stabilityF])

/-- C4: when `P` evenly divides the column axis, the split-by-columns
    decomposition is an exact cover: every global column belongs to
    exactly one worker's region, and every region lies inside the grid
    (rows are not split, so column membership decides cell membership). -/
theorem C4_partition_exact_cover (cols P : ℕ) (hdvd : P ∣ cols) :
    (∀ c, c < cols → ∃! i, i < P ∧ inRegion cols P i c) ∧
    ∀ i c, i < P → inRegion cols P i c → c < cols := by
  have hPL : P * local_cols cols P = cols := Nat.mul_div_cancel' hdvd
  constructor
  · intro c hc
    have hL : 0 < local_cols cols P := by
      rcases Nat.eq_zero_or_pos (local_cols cols P) with h0 | h0
      · rw [h0, Nat.mul_zero] at hPL
        omega
      · exact h0
    refine ⟨c / local_cols cols P, ⟨?_, ?_, ?_⟩, ?_⟩
    · rw [Nat.div_lt_iff_lt_mul hL, hPL]
      exact hc
    · exact Nat.div_mul_le_self c _
    · have h1 := Nat.div_add_mod c (local_cols cols P)
      have h2 := Nat.mod_lt c hL
      rw [Nat.succ_mul, Nat.mul_comm (local_cols cols P) _] at *
      omega
    · rintro y ⟨hy, hy1, hy2⟩
      exact (Nat.div_eq_of_lt_le hy1 hy2).symm
  · intro i c hi hreg
    obtain ⟨hr1, hr2⟩ := hreg
    have hle : (i + 1) * local_cols cols P ≤ P * local_cols cols P :=
      Nat.mul_le_mul_right _ (by omega)
    omega

/-- Witness for C4: the notebook's own decomposition, 5000 columns over
    4 workers. -/
theorem C4_partition_exact_cover_witness :
    (∀ c, c < 5000 → ∃! i, i < 4 ∧ inRegion 5000 4 i c) ∧
    ∀ i c, i < 4 → inRegion 5000 4 i c → c < 5000 :=
  C4_partition_exact_cover 5000 4 (by decide)

/-- C5: when `P` does not evenly divide the decomposition axis, the
    modelled GridPartitioner fails with a configuration error and never
    returns partitions; and whenever it does return partitions, they are
    equal-width (never unequal or padded) and lie inside the grid. -/
theorem C5_partition_divisibility (cols P : ℕ) (h : ¬ P ∣ cols) :
    (gridPartition cols P = Except.error SolverError.configError ∧
      ∀ regs, gridPartition cols P ≠ Except.ok regs) ∧
    ∀ cols2 regs, gridPartition cols2 P = Except.ok regs →
      ∀ reg ∈ regs, reg.2 - reg.1 = local_cols cols2 P ∧ reg.2 ≤ cols2 := by
  refine ⟨⟨?_, ?_⟩, ?_⟩
  · unfold gridPartition
    rw [if_neg h]
  · intro regs hregs
    unfold gridPartition at hregs
    rw [if_neg h] at hregs
    exact Except.noConfusion hregs
  · intro cols2 regs hregs reg hreg
    unfold gridPartition at hregs
    by_cases hd : P ∣ cols2
    · rw [if_pos hd] at hregs
      have hregs' : ((List.range P).map fun i =>
          (i * local_cols cols2 P, (i + 1) * local_cols cols2 P)) = regs :=
        Except.ok.inj hregs
      rw [← hregs'] at hreg
      obtain ⟨i, hi, rfl⟩ := List.mem_map.mp hreg
      have hiP : i < P := List.mem_range.mp hi
      have hPL : P * local_cols cols2 P = cols2 := Nat.mul_div_cancel' hd
      have hle : (i + 1) * local_cols cols2 P ≤ P * local_cols cols2 P :=
        Nat.mul_le_mul_right _ (by omega)
      constructor
      · show (i + 1) * local_cols cols2 P - i * local_cols cols2 P = local_cols cols2 P
        rw [Nat.succ_mul]
        omega
      · show (i + 1) * local_cols cols2 P ≤ cols2
        omega
    · rw [if_neg hd] at hregs
      exact Except.noConfusion hregs

/-- Witness for C5: 4 workers do not divide 5 columns; the partitioner
    errors out. -/
theorem C5_partition_divisibility_witness :
    (gridPartition 5 4 = Except.error SolverError.configError ∧
      ∀ regs, gridPartition 5 4 ≠ Except.ok regs) ∧
    ∀ cols2 regs, gridPartition cols2 4 = Except.ok regs →
      ∀ reg ∈ regs, reg.2 - reg.1 = local_cols cols2 4 ∧ reg.2 ≤ cols2 :=
  C5_partition_divisibility 5 4 (by decide)

/-- C7: whenever the stepping loop ends in the `DIVERGED` outcome, the
    field it reports is the last valid field: the `k`-th iterate for some
    `k` below the budget, whose successor fails the finiteness check,
    while every earlier update had passed it. -/
theorem C7_divergence_preserves_last {α : Type} (update : α → α) (finiteCheck : α → Bool)
    (nt : ℕ) (x : α) (h : (stepLoop update finiteCheck nt x).1 = Phase.DIVERGED) :
    ∃ k, k < nt ∧ (stepLoop update finiteCheck nt x).2 = update^[k] x ∧
      finiteCheck (update^[k + 1] x) = false ∧
      ∀ j, 1 ≤ j → j ≤ k → finiteCheck (update^[j] x) = true := by
  induction nt generalizing x with
  | zero => simp [stepLoop] at h
  | succ n ih =>
      by_cases hc : finiteCheck (update x) = true
      · have hrw : stepLoop update finiteCheck (n + 1) x
            = stepLoop update finiteCheck n (update x) := by
          simp [stepLoop, hc]
        rw [hrw] at h ⊢
        obtain ⟨k, hk, hfield, hdiv, hvalid⟩ := ih (update x) h
        refine ⟨k + 1, by omega, ?_, ?_, ?_⟩
        · rw [hfield, Function.iterate_succ_apply]
        · rw [Function.iterate_succ_apply]
          exact hdiv
        · intro j hj1 hj2
          rcases Nat.eq_or_lt_of_le hj1 with h1 | h1
          · rw [← h1, Function.iterate_one]
            exact hc
          · obtain ⟨m, rfl⟩ : ∃ m, j = m + 1 := ⟨j - 1, by omega⟩
            rw [Function.iterate_succ_apply]
            exact hvalid m (by omega) (by omega)
      · rw [Bool.not_eq_true] at hc
        have hrw : stepLoop update finiteCheck (n + 1) x = (Phase.DIVERGED, x) := by
          simp [stepLoop, hc]
        rw [hrw]
        refine ⟨0, by omega, rfl, ?_, ?_⟩
        · rw [Function.iterate_one]
          exact hc
        · intro j hj1 hj2
          omega

/-- Witness for C7: updating 0 by +1 with finiteness check `q < 2` and
    budget 5 diverges at the second update and reports the field 1. -/
theorem C7_divergence_preserves_last_witness :
    ∃ k, k < 5 ∧ (stepLoop (fun q : ℚ => q + 1) (fun q => decide (q < 2)) 5 0).2
      = (fun q : ℚ => q + 1)^[k] 0 ∧
      (fun q : ℚ => decide (q < 2)) ((fun q : ℚ => q + 1)^[k + 1] 0) = false ∧
      ∀ j, 1 ≤ j → j ≤ k →
        (fun q : ℚ => decide (q < 2)) ((fun q : ℚ => q + 1)^[j] 0) = true :=
  C7_divergence_preserves_last _ _ 5 0 (by decide)

lemma simulationAlloc_spec (F : ℚ) :
    ∀ (nt : ℕ) (store : List (List ℚ)) (r : ℕ),
      (∀ k, k < store.length →
        ((simulationAlloc F nt store r).1).getD k [] = store.getD k []) ∧
      ((simulationAlloc F nt store r).1).getD (simulationAlloc F nt store r).2 []
        = simulation (store.getD r []) F nt := by
  intro nt
  induction nt with
  | zero => exact fun store r => ⟨fun k _ => rfl, rfl⟩
  | succ n ih =>
      intro store r
      obtain ⟨h1, h2⟩ := ih (store ++ [central_diff_stencil (store.getD r []) F]) store.length
      have hstep : simulationAlloc F (n + 1) store r
          = simulationAlloc F n (store ++ [central_diff_stencil (store.getD r []) F])
            store.length := rfl
      constructor
      · intro k hk
        rw [hstep, h1 k (by simp only [List.length_append, List.length_cons]; omega),
          List.getD_append _ _ _ _ hk]
      · rw [hstep, h2, List.getD_append_right _ _ _ _ (Nat.le_refl _), Nat.sub_self]
        show simulation (central_diff_stencil (store.getD r []) F) F n
          = simulation (store.getD r []) F (n + 1)
        simp only [simulation, Function.iterate_succ_apply]

lemma simulationAlloc2D_spec (Fx Fy : ℚ) :
    ∀ (nt : ℕ) (store : List Field2) (r : ℕ),
      (∀ k, k < store.length →
        ((simulationAlloc2D Fx Fy nt store r).1).getD k [] = store.getD k []) ∧
      ((simulationAlloc2D Fx Fy nt store r).1).getD (simulationAlloc2D Fx Fy nt store r).2 []
        = simulation2D (store.getD r []) Fx Fy nt := by
  intro nt
  induction nt with
  | zero => exact fun store r => ⟨fun k _ => rfl, rfl⟩
  | succ n ih =>
      intro store r
      obtain ⟨h1, h2⟩ := ih (store ++ [central_diff_stencil2D (store.getD r []) Fx Fy])
        store.length
      have hstep : simulationAlloc2D Fx Fy (n + 1) store r
          = simulationAlloc2D Fx Fy n (store ++ [central_diff_stencil2D (store.getD r []) Fx Fy])
            store.length := rfl
      constructor
      · intro k hk
        rw [hstep, h1 k (by simp only [List.length_append, List.length_cons]; omega),
          List.getD_append _ _ _ _ hk]
      · rw [hstep, h2, List.getD_append_right _ _ _ _ (Nat.le_refl _), Nat.sub_self]
        show simulation2D (central_diff_stencil2D (store.getD r []) Fx Fy) Fx Fy n
          = simulation2D (store.getD r []) Fx Fy (n + 1)
        simp only [simulation2D, Function.iterate_succ_apply]

/-- C10: neither simulation loop ever mutates an existing array:
    threading the allocation store through the 1-D loop (`simulation`)
    and the 2-D loop (`simulation2D`), every array that existed before
    the call holds exactly the values it held before, each iteration
    only appends a freshly allocated array, and the array the final
    reference points to is the pure `nt`-fold stencil iterate of the
    input. -/
theorem C10_no_mutation (F Fx Fy : ℚ) (nt nt2 : ℕ)
    (store : List (List ℚ)) (r k : ℕ) (hk : k < store.length)
    (store2 : List Field2) (r2 k2 : ℕ) (hk2 : k2 < store2.length) :
    (((simulationAlloc F nt store r).1).getD k [] = store.getD k [] ∧
      ((simulationAlloc F nt store r).1).getD (simulationAlloc F nt store r).2 []
        = simulation (store.getD r []) F nt) ∧
    ((simulationAlloc2D Fx Fy nt2 store2 r2).1).getD k2 [] = store2.getD k2 [] ∧
    ((simulationAlloc2D Fx Fy nt2 store2 r2).1).getD
        (simulationAlloc2D Fx Fy nt2 store2 r2).2 []
      = simulation2D (store2.getD r2 []) Fx Fy nt2 :=
  ⟨⟨(simulationAlloc_spec F nt store r).1 k hk, (simulationAlloc_spec F nt store r).2⟩,
    (simulationAlloc2D_spec Fx Fy nt2 store2 r2).1 k2 hk2,
    (simulationAlloc2D_spec Fx Fy nt2 store2 r2).2⟩

/-- Witness for C10: two iterations of each loop on stores holding one
    array leave that array intact, and the result references hold the
    pure iterates. -/
theorem C10_no_mutation_witness :
    (((simulationAlloc (mkRat 1 2) 2 [[1, 2, 3]] 0).1).getD 0 [] = [[1, 2, 3]].getD 0 [] ∧
      ((simulationAlloc (mkRat 1 2) 2 [[1, 2, 3]] 0).1).getD
          (simulationAlloc (mkRat 1 2) 2 [[1, 2, 3]] 0).2 []
        = simulation ([[1, 2, 3]].getD 0 []) (mkRat 1 2) 2) ∧
    ((simulationAlloc2D (mkRat 1 10) (mkRat 1 10) 2
          [[[1, 2, 3], [4, 5, 6], [7, 8, 9]]] 0).1).getD 0 []
        = [[[1, 2, 3], [4, 5, 6], [7, 8, 9]]].getD 0 [] ∧
    ((simulationAlloc2D (mkRat 1 10) (mkRat 1 10) 2
          [[[1, 2, 3], [4, 5, 6], [7, 8, 9]]] 0).1).getD
        (simulationAlloc2D (mkRat 1 10) (mkRat 1 10) 2
          [[[1, 2, 3], [4, 5, 6], [7, 8, 9]]] 0).2 []
      = simulation2D ([[[1, 2, 3], [4, 5, 6], [7, 8, 9]]].getD 0 [])
          (mkRat 1 10) (mkRat 1 10) 2 :=
  C10_no_mutation (mkRat 1 2) (mkRat 1 10) (mkRat 1 10) 2 2 [[1, 2, 3]] 0 0 (by decide)
    [[[1, 2, 3], [4, 5, 6], [7, 8, 9]]] 0 0 (by decide)

/-- C3 fails on the code: at the grid point shared exactly by both
    discretizations (row 0, global column 4999, the corner c = 1 − i),
    the single-device array holds 1 while the P = 4 column-split assembly
    holds 31 — the deliberate `+ i * 10` per-GPU colour offset — so the
    fields do not agree within the 1e-10 tolerance. -/
theorem C3_counterexample :
    ¬ (|(hstacked 0 4999 : ℚ) - (mandelbrot_array 0 4999 : ℚ)| ≤ 1 / 10000000000) := by
  decide

/-- C3 amended: the decomposition does change the numerical result (each
    tile `i` carries the deliberate colour offset `10·i` and the local
    linspace grids differ from the global one); the two arrays agree where
    both effects vanish — along the entire first column, which is tile 0's
    (offset 0) left edge, the shared grid point `x = −2` — while at the
    shared right-edge corner the assembled value is 31 against 1. -/
theorem C3_column0_agreement :
    (∀ r, r < 5000 → hstacked r 0 = mandelbrot_array r 0) ∧
    hstacked 0 4999 = 31 ∧ mandelbrot_array 0 4999 = 1 := by
  refine ⟨fun r hr => ?_, by decide, by decide⟩
  have h0 : linspace (xmin_local 0) (xmax_local 0) 1250 0 = -2 := by
    norm_num [linspace, xmin_local]
  have hg : linspace (-2) 1 5000 0 = -2 := by norm_num [linspace]
  show mandelbrot_tile (0 / 1250) r (0 % 1250) = mandelbrot_array r 0
  norm_num [mandelbrot_tile, mandelbrot_array, h0, hg]

set_option maxRecDepth 4000 in
/-- C8: the end-to-end scenario — `nx = ny = 8` (a 9×9 point grid in the
    notebook's `(n+1)`-points convention), `alpha = 1`, `dx = dy = 1`,
    `dt = 0.1`, so `Fx = Fy = F = 0.1`, zero boundary re-imposed by the
    stencil each step, unit impulse at the centre point `(4, 4)` — run for
    10 iterations: at each iteration the interior mass does not increase,
    and every intermediate field is symmetric about the centre. -/
theorem C8_scenario (k : ℕ) (hk : k < 10) :
    interiorMass (heat8 (k + 1)) ≤ interiorMass (heat8 k) ∧
    symmCenter (heat8 (k + 1)) ∧ symmCenter (heat8 k) := by
  revert hk
  revert k
  decide

/-- Witness for C8 at the first iteration. -/
theorem C8_scenario_witness :
    interiorMass (heat8 (0 + 1)) ≤ interiorMass (heat8 0) ∧
    symmCenter (heat8 (0 + 1)) ∧ symmCenter (heat8 0) :=
  C8_scenario 0 (by decide)

end

end SummerU
